import Mathlib

/-!
Verification of the claudecraft/specflow execution kernel.

Shallow embedding of:
  * `specflow/orchestration/ralph.py` — RalphLoopConfig, RalphLoopState,
    RalphLoop (start / increment / should_continue), PromiseVerifier
    (string_match, semantic, multi_stage dispatch; external commands are
    effectful and appear as oracle outcomes).
  * `claudecraft/orchestration/execution.py` — ExecutionPipeline
    (execute_task, _execute_stage_traditional, execute_stage_with_ralph).
  * `claudecraft/orchestration/agent_pool.py` — AgentSlot, AgentPool.
  * `specflow/orchestration/merge.py` — GitAutoMerge, MergeOrchestrator.

Machine text is modelled with Lean `String`; Python's `in` substring test,
`str.lower`/`str.upper`, and `str.split()` are modelled on character lists.
-/

namespace Claudecraft

/-- Python's `needle in haystack` substring test on strings: the needle's
character list is a prefix of some tail of the haystack's. -/
def pyIn (needle haystack : String) : Bool :=
  haystack.toList.tails.any (fun t => needle.toList.isPrefixOf t)

/-- Python's `str.lower()`, characterwise. -/
def pyLower (s : String) : String := String.mk (s.toList.map Char.toLower)

/-- Python's `str.upper()`, characterwise. -/
def pyUpper (s : String) : String := String.mk (s.toList.map Char.toUpper)

/-- Helper for `splitWs`: walk the characters accumulating the current
word (reversed), emitting it at each whitespace boundary. -/
def splitWsChars : List Char → List Char → List String
  | [], cur => if cur.isEmpty then [] else [String.mk cur.reverse]
  | c :: cs, cur =>
    if c.isWhitespace then
      (if cur.isEmpty then [] else [String.mk cur.reverse]) ++ splitWsChars cs []
    else splitWsChars cs (c :: cur)

/-- Python's `str.split()` with no argument: split on runs of whitespace,
dropping empty pieces. -/
def splitWs (s : String) : List String := splitWsChars s.toList []

/-- Modelled from the spec: the `VerificationMethod` enum lives in
`specflow/core/database.py`, which is not part of the provided sources.
Per §3 (CompletionCriteria) its values are
`string_match | semantic | external | multi_stage`. -/
inductive VerificationMethod where
  | string_match
  | semantic
  | external
  | multi_stage
  deriving DecidableEq, Repr

/-- Modelled from the spec: `VerificationMethod(method_str)` — the enum
constructor used in `_verify_multi_stage`, raising `ValueError` (here `none`)
on an unrecognised string. -/
def VerificationMethod.ofString : String → Option VerificationMethod
  | "string_match" => some .string_match
  | "semantic" => some .semantic
  | "external" => some .external
  | "multi_stage" => some .multi_stage
  | _ => none

/-- One stage entry of a `multi_stage` verification config
(`_verify_multi_stage` reads `name`, `method`, `config`, `required` from each
stage dict; the per-method `config` keys it consumes are `promise` for
string_match and `check_for`/`negative_patterns` for semantic).
`extResult` is the outcome `_verify_external` would produce for this stage's
config and worktree (an external shell command, hence an oracle). -/
structure MSStage where
  name : String := "unnamed"
  method : String := "string_match"
  promise : String := ""
  check_for : List String := []
  negative_patterns : List String := []
  extResult : Bool × String := (false, "")
  required : Bool := true
  deriving Repr

/-- Modelled from the spec: `CompletionCriteria` lives in
`specflow/core/database.py` (not under src/). Per §3 it is
`{ promise, description, method, config, max_iterations? }`; the
`verification_config` dict is represented by the typed fields the verifier
methods read (`check_for`/`negative_patterns` for semantic,
`stages`/`require_all` for multi_stage), plus an oracle outcome for the
external-command method. -/
structure CompletionCriteria where
  promise : String
  description : String := ""
  verification_method : VerificationMethod
  check_for : List String := []
  negative_patterns : List String := []
  stages : List MSStage := []
  require_all : Bool := true
  extResult : Except String (Bool × String) := .ok (false, "")
  max_iterations : Option Nat := none
  deriving Repr

/-- Embedding of `PromiseVerifier._verify_string_match`. -/
def verifyStringMatch (promise output : String) : Bool × String :=
  if promise = "" then (false, "No promise text specified")
  else if output = "" then (false, "No output to verify")
  else if pyIn (pyUpper promise) (pyUpper output) then
    (true, "Promise '" ++ promise ++ "' found in output")
  else (false, "Promise '" ++ promise ++ "' not found in output")

/-- The `found_words < len(criterion_words) * 0.3` test of `_verify_semantic`,
i.e. the criterion is missing when fewer than 30% of its tokens were found.
The Python comparison is on floats; for every token count below 2^50 the
float comparison agrees with the exact rational one, which over naturals is
`10 * found < 3 * len`. -/
def criterionMissing (output : String) (criterion : String) : Bool :=
  let ws := splitWs (pyLower criterion)
  let found := (ws.filter (fun w => pyIn w (pyLower output))).length
  10 * found < 3 * ws.length

/-- Embedding of `PromiseVerifier._verify_semantic` (its two config reads
`config.get("check_for", [])` and `config.get("negative_patterns", [])` are
the two list arguments). -/
def verifySemantic (output : String) (check_for negative_patterns : List String) :
    Bool × String :=
  if output = "" then (false, "No output to verify")
  else
    match negative_patterns.find? (fun p => pyIn (pyLower p) (pyLower output)) with
    | some p => (false, "Found negative pattern: '" ++ p ++ "'")
    | none =>
      if check_for.isEmpty then (true, "No specific criteria to verify")
      else
        match check_for.filter (criterionMissing output) with
        | [] => (true, "All criteria appear to be met")
        | [c] => (false, "Criterion not evident: " ++ c)
        | missing => (false, "Criteria not evident: " ++
            String.intercalate ", " (missing.take 3))

/-- One entry of the `results` list accumulated by `_verify_multi_stage`. -/
structure StageResult where
  name : String
  passed : Bool
  reason : String
  required : Bool
  deriving Repr

/-- The per-stage dispatch inside `_verify_multi_stage`, after
`VerificationMethod(method_str)` succeeded: string_match reads the stage
config's `promise`, semantic its `check_for`/`negative_patterns`, external
runs the stage's command (the `extResult` oracle), and the remaining enum
member (multi_stage itself) takes the `else` branch
`True, "Skipped (unsupported in multi-stage)"`. -/
def runMSMethod (st : MSStage) (output : String) (m : VerificationMethod) :
    Bool × String :=
  match m with
  | .string_match => verifyStringMatch st.promise output
  | .semantic => verifySemantic output st.check_for st.negative_patterns
  | .external => st.extResult
  | .multi_stage => (true, "Skipped (unsupported in multi-stage)")

/-- The `for stage in stages` loop of `_verify_multi_stage`: `Sum.inl` is the
early `return` taken when a required stage fails while `require_all` is set;
`Sum.inr` carries the accumulated results when the loop runs to the end.
A stage with an unrecognised method appends a failed result and `continue`s
(no early exit). -/
def msRun (output : String) (require_all : Bool) :
    List MSStage → List StageResult → (Bool × String) ⊕ List StageResult
  | [], acc => Sum.inr acc
  | st :: rest, acc =>
    match VerificationMethod.ofString st.method with
    | none =>
        msRun output require_all rest
          (acc ++ [⟨st.name, false, "Unknown method: " ++ st.method, st.required⟩])
    | some m =>
        let pr := runMSMethod st output m
        let acc' := acc ++ [⟨st.name, pr.1, pr.2, st.required⟩]
        if !pr.1 && st.required && require_all then
          Sum.inl (false, "Stage '" ++ st.name ++ "' failed: " ++ pr.2)
        else msRun output require_all rest acc'

/-- Embedding of `PromiseVerifier._verify_multi_stage`. -/
def verifyMultiStage (output : String) (stages : List MSStage)
    (require_all : Bool) : Bool × String :=
  if stages.isEmpty then (true, "No verification stages defined")
  else
    match msRun output require_all stages [] with
    | Sum.inl r => r
    | Sum.inr results =>
      let failed := results.filter (fun r => r.required && !r.passed)
      if !failed.isEmpty then
        (false, "Failed stages: " ++
          String.intercalate "; " (failed.map (fun r => r.name ++ ": " ++ r.reason)))
      else
        (true, "All " ++ toString (results.countP (fun r => r.passed)) ++ "/" ++
          toString stages.length ++ " verification stages passed")

/-- Embedding of `VerificationResult` (the `details` dict and wall-clock timestamping are
not modelled; `duration_ms` is the elapsed-milliseconds value the caller
measured). -/
structure VerificationResult where
  passed : Bool
  reason : String
  method : VerificationMethod
  duration_ms : Nat := 0
  deriving Repr

/-- The `try` body of `PromiseVerifier.verify`: dispatch on
`criteria.verification_method`. The external-command branch is the
effectful subprocess call; its outcome — or an exception escaping the
dispatched method — is the `criteria.extResult` oracle (`Except.error e`
models a raised exception with message `e`). -/
def runVerifyMethod (criteria : CompletionCriteria) (output : String) :
    Except String (Bool × String) :=
  match criteria.verification_method with
  | .string_match => .ok (verifyStringMatch criteria.promise output)
  | .semantic => .ok (verifySemantic output criteria.check_for criteria.negative_patterns)
  | .external => criteria.extResult
  | .multi_stage => .ok (verifyMultiStage output criteria.stages criteria.require_all)

/-- Embedding of `PromiseVerifier.verify`: runs the dispatched method, converts a raised
exception into a failed result with reason `Verification error: <e>`, and
always returns a `VerificationResult` carrying the criteria's method and the
measured duration. -/
def PromiseVerifier.verify (criteria : CompletionCriteria) (output : String)
    (duration_ms : Nat) : VerificationResult :=
  match runVerifyMethod criteria output with
  | .ok pr => ⟨pr.1, pr.2, criteria.verification_method, duration_ms⟩
  | .error e =>
      ⟨false, "Verification error: " ++ e, criteria.verification_method, duration_ms⟩

/-- Per-agent overrides inside `RalphLoopConfig.agent_defaults`
(the nested dicts read via `.get("max_iterations" | "promise" | "verification")`). -/
structure AgentDefault where
  max_iterations : Option Nat := none
  promise : Option String := none
  verification : Option String := none
  deriving Repr

/-- Embedding of `RalphLoopConfig` (ralph.py). -/
structure RalphLoopConfig where
  enabled : Bool := true
  max_iterations : Nat := 10
  default_verification : VerificationMethod := .string_match
  agent_defaults : List (String × AgentDefault) := []
  deriving Repr

/-- Embedding of `RalphLoopConfig.get_max_iterations_for_agent`. -/
def RalphLoopConfig.get_max_iterations_for_agent (c : RalphLoopConfig)
    (agent_type : String) : Nat :=
  match c.agent_defaults.lookup agent_type with
  | some d => d.max_iterations.getD c.max_iterations
  | none => c.max_iterations

/-- One entry of `RalphLoopState.verification_results`
(the wall-clock `timestamp` field is not modelled). -/
structure VerRecord where
  iteration : Nat
  promise_found : Bool
  verified : Bool
  reason : String
  deriving Repr

/-- Embedding of `RalphLoopState` (`started_at` and the derived `elapsed_seconds` are
wall-clock values and are not modelled). -/
structure RalphLoopState where
  task_id : String
  agent_type : String
  iteration : Nat
  max_iterations : Nat
  completion_criteria : CompletionCriteria
  verification_results : List VerRecord := []
  deriving Repr

/-- Embedding of `RalphLoopState.is_at_limit`: `iteration >= max_iterations`. -/
def RalphLoopState.is_at_limit (st : RalphLoopState) : Bool :=
  st.max_iterations ≤ st.iteration

/-- Embedding of `RalphLoopState.add_verification_result`. -/
def RalphLoopState.addResult (st : RalphLoopState)
    (promise_found verified : Bool) (reason : String) : RalphLoopState :=
  { st with verification_results := st.verification_results ++
      [⟨st.iteration, promise_found, verified, reason⟩] }

/-- The `self.verifier` object a `RalphLoop` holds: `should_continue` uses it
only through `extract_promise` and `verify` (the latter closing over the
worktree path, the call context and the measured duration). -/
structure Verifier where
  extract_promise : String → Option String
  verify : CompletionCriteria → String → VerificationResult

/-- The body of `RalphLoop.should_continue` once an active state exists,
returning the updated state (a verification record is appended on every
path) together with the `(should_continue, reason)` pair. `promise.getD ""
= ""` is Python's falsiness test `if not promise:` (promise absent, or a
whitespace-only tag whose stripped interior is empty). -/
def shouldContinueActive (v : Verifier) (st : RalphLoopState) (output : String) :
    RalphLoopState × Bool × String :=
  let promise := v.extract_promise output
  if promise.getD "" = "" then
    if st.is_at_limit then
      (st.addResult false false "Max iterations reached without completion promise",
       false, "Max iterations reached without completion promise")
    else
      (st.addResult false false "No completion promise found in output",
       true, "No completion promise found")
  else
    let result := v.verify st.completion_criteria output
    let st' := st.addResult true result.passed result.reason
    if result.passed then (st', false, "Completion verified")
    else if st.is_at_limit then
      (st', false, "Max iterations reached. Last verification: " ++ result.reason)
    else (st', true, "Verification failed: " ++ result.reason)

namespace RalphLoop

/-- Embedding of `RalphLoop.should_continue`: raises `RuntimeError("No active Ralph loop")`
when `self.state is None`, otherwise analyses the output. -/
def should_continue (v : Verifier) (state : Option RalphLoopState)
    (output : String) : Except String (RalphLoopState × Bool × String) :=
  match state with
  | none => .error "No active Ralph loop"
  | some st => .ok (shouldContinueActive v st output)

/-- Embedding of `RalphLoop.start` with explicit criteria: raises `ValueError` when Ralph
loops are disabled, otherwise creates a fresh state at iteration 0 whose
`max_iterations` comes from the criteria or from the per-agent config
default. -/
def start (cfg : RalphLoopConfig) (taskId agent_type : String)
    (criteria : CompletionCriteria) : Except String RalphLoopState :=
  if !cfg.enabled then .error "Ralph loops are disabled in configuration"
  else .ok
    { task_id := taskId
      agent_type := agent_type
      iteration := 0
      max_iterations :=
        criteria.max_iterations.getD (cfg.get_max_iterations_for_agent agent_type)
      completion_criteria := criteria
      verification_results := [] }

/-- Embedding of `RalphLoop.increment` on an active state. -/
def increment (st : RalphLoopState) : RalphLoopState :=
  { st with iteration := st.iteration + 1 }

/-- Embedding of `RalphLoop.finish`'s success computation: the `verified` flag of the most
recent verification record, `False` when there is none. -/
def finishSuccess (st : RalphLoopState) : Bool :=
  match st.verification_results.getLast? with
  | some r => r.verified
  | none => false

end RalphLoop

/-- One externally invokable operation on a `RalphLoop` object
(`start` / `increment` / `should_continue`). -/
inductive RalphOp where
  | start (taskId agent_type : String) (criteria : CompletionCriteria)
  | increment
  | check (output : String)

/-- Effect of one operation on `self.state`. When the Python method raises
(`increment`/`should_continue` with no active loop, `start` while disabled)
`self.state` is left untouched. -/
def applyRalphOp (cfg : RalphLoopConfig) (v : Verifier) :
    Option RalphLoopState → RalphOp → Option RalphLoopState
  | st, .start taskId agent criteria =>
      match RalphLoop.start cfg taskId agent criteria with
      | .ok st' => some st'
      | .error _ => st
  | none, .increment => none
  | some st, .increment => some (RalphLoop.increment st)
  | none, .check _ => none
  | some st, .check output => some (shouldContinueActive v st output).1

/-- The loop state reached after a sequence of operations on a fresh
`RalphLoop` (whose `self.state` starts as `None`). -/
def ralphReach (cfg : RalphLoopConfig) (v : Verifier) (ops : List RalphOp) :
    Option RalphLoopState :=
  ops.foldl (applyRalphOp cfg v) none

/-- The `while True` loop of `ExecutionPipeline.execute_stage_with_ralph`:
increment, run the agent (`outOf i` is the agent output of iteration `i`),
ask `should_continue`, and stop when it says so; on exit success is
`ralph.finish()["success"]`. The collected outputs are later joined with
`"\n---\n"`. `fuel` bounds the recursion; `max_iterations + 1` is always
enough because `should_continue` stops at the limit. -/
def runRalphLoop (v : Verifier) (outOf : Nat → String) :
    Nat → RalphLoopState → List String → RalphLoopState × Bool × List String
  | 0, st, acc => (st, false, acc)
  | fuel + 1, st, acc =>
    let st1 := RalphLoop.increment st
    let output := outOf st1.iteration
    let res := shouldContinueActive v st1 output
    if res.2.1 then runRalphLoop v outOf fuel res.1 (acc ++ [output])
    else (res.1, RalphLoop.finishSuccess res.1, acc ++ [output])

/-- Modelled from the spec: `TaskStatus` lives in
`claudecraft/core/database.py`, which is not part of the provided sources;
§4.6 gives the statuses the pipeline uses
(todo, implementing, reviewing, testing, done). -/
inductive TaskStatus where
  | todo
  | implementing
  | reviewing
  | testing
  | done
  deriving DecidableEq, Repr

/-- Embedding of `PipelineStage` (execution.py). -/
structure Stage where
  name : String
  agent_type : String
  max_iterations : Nat := 1
  deriving Repr

/-- Embedding of `ExecutionPipeline.DEFAULT_PIPELINE`. -/
def DEFAULT_PIPELINE : List Stage :=
  [⟨"Implementation", "coder", 3⟩,
   ⟨"Code Review", "reviewer", 2⟩,
   ⟨"Testing", "tester", 2⟩,
   ⟨"QA Validation", "qa", 10⟩]

/-- The constant `self.max_total_iterations`, set to 10 in `ExecutionPipeline.__init__`. -/
def maxTotalIterations : Nat := 10

/-- The `while` loop of `_execute_stage_traditional`: run
`iteration < stage.max_iterations and total_iterations < max_total_iterations`
passes, returning `(total_iterations, success, output)`. `succ i` / `outOf i`
are the success flag and output of `_execute_stage` at within-stage iteration
`i`; `fuel` starts at `stage.max_iterations`, matching the first conjunct of
the loop guard. -/
def tradLoop (succ : Nat → Bool) (outOf : Nat → String) (maxTotal : Nat) :
    Nat → Nat → Nat → Option String → Nat × Bool × String
  | 0, _, total, lastOut => (total, false, lastOut.getD "No output")
  | fuel + 1, it, total, lastOut =>
    if total < maxTotal then
      let it' := it + 1
      if succ it' then (total + 1, true, outOf it')
      else tradLoop succ outOf maxTotal fuel it' (total + 1) (some (outOf it'))
    else (total, false, lastOut.getD "No output")

/-- Embedding of `_execute_stage_traditional`. -/
def execStageTraditional (succ : Nat → Bool) (outOf : Nat → String)
    (stageMax total : Nat) : Nat × Bool × String :=
  tradLoop succ outOf maxTotalIterations stageMax 0 total none

/-- The environment `execute_task` runs in: the ralph config, the `use_ralph`
override, whether the task carries a completion spec, the criteria
`_get_completion_criteria` yields per agent type, the verifier behaviour, and
the agent-runner outcomes (per stage name and iteration) for the ralph and
traditional paths. -/
structure ExecModel where
  cfg : RalphLoopConfig
  useRalph : Option Bool := none
  hasSpec : Bool := true
  criteriaFor : String → CompletionCriteria
  v : Verifier
  ralphOut : String → Nat → String
  tradSucc : String → Nat → Bool
  tradOut : String → Nat → String

/-- The flag `ralph_enabled = use_ralph if use_ralph is not None else
self.ralph_config.enabled`. -/
def ExecModel.ralphEnabled (m : ExecModel) : Bool :=
  m.useRalph.getD m.cfg.enabled

/-- Result of one stage as `execute_task` consumes it. -/
structure StageOut where
  newTotal : Nat
  success : Bool
  output : String
  ralph_iterations : Nat
  deriving Repr

/-- Embedding of `execute_stage_with_ralph` for one stage: when the config is disabled
(criteria unavailable or `start` raising `ValueError`) it falls back to a
single `_execute_stage` call with `ralph_iterations = 0`; otherwise it drives
the ralph loop, whose iteration count and joined outputs it reports. -/
def execStageRalph (m : ExecModel) (stage : Stage) : Bool × String × Nat :=
  if !m.cfg.enabled then
    (m.tradSucc stage.name 1, m.tradOut stage.name 1, 0)
  else
    match RalphLoop.start m.cfg "" stage.agent_type (m.criteriaFor stage.agent_type) with
    | .error _ => (m.tradSucc stage.name 1, m.tradOut stage.name 1, 0)
    | .ok st0 =>
      let (stF, success, outs) :=
        runRalphLoop m.v (m.ralphOut stage.name) (st0.max_iterations + 1) st0 []
      (success, String.intercalate "\n---\n" outs, stF.iteration)

/-- One iteration of the `for stage in self.pipeline` loop of
`execute_task`: the ralph path adds `result.ralph_iterations or 1` to the
running total, the traditional path replaces it with the loop's own count. -/
def execStage (m : ExecModel) (stage : Stage) (total : Nat) : StageOut :=
  if m.ralphEnabled && m.hasSpec then
    let (success, output, iters) := execStageRalph m stage
    { newTotal := total + (if iters = 0 then 1 else iters)
      success := success
      output := output
      ralph_iterations := iters }
  else
    let (total', success, output) :=
      execStageTraditional (m.tradSucc stage.name) (m.tradOut stage.name)
        stage.max_iterations total
    { newTotal := total', success := success, output := output,
      ralph_iterations := 0 }

/-- The task fields `execute_task` mutates and its return value. -/
structure TaskRun where
  success : Bool
  status : TaskStatus
  iteration : Nat
  failure_stage : Option String := none
  failure_reason : Option String := none
  ralph_iterations_meta : Option Nat := none
  deriving Repr

/-- The stage loop of `execute_task`: on a failed stage the task is reset to
`todo` with `failure_stage`, `failure_reason` (output truncated to 1000
characters) and — when ralph iterations occurred — `ralph_iterations`
metadata; when every stage passes the task becomes `done`. -/
def execGo (m : ExecModel) : List Stage → Nat → TaskRun
  | [], total => { success := true, status := .done, iteration := total }
  | stage :: rest, total =>
    let r := execStage m stage total
    if r.success then execGo m rest r.newTotal
    else
      { success := false
        status := .todo
        iteration := r.newTotal
        failure_stage := some stage.name
        failure_reason := some (r.output.take 1000)
        ralph_iterations_meta :=
          if 0 < r.ralph_iterations then some r.ralph_iterations else none }

/-- Embedding of `ExecutionPipeline.execute_task`. -/
def executeTask (m : ExecModel) (pipeline : List Stage) : TaskRun :=
  execGo m pipeline 0

/-- Embedding of `AgentSlot` (agent_pool.py); `started_at` is wall-clock and not
modelled. -/
structure AgentSlot where
  slot_id : Nat
  task_id : Option String := none
  agent_type : Option String := none
  status : String := "idle"
  worktree_path : Option String := none
  deriving DecidableEq, Repr

/-- Embedding of `AgentSlot.is_available`. -/
def AgentSlot.is_available (s : AgentSlot) : Bool := s.status == "idle"

/-- Embedding of `AgentSlot.assign`. -/
def AgentSlot.assign (s : AgentSlot) (taskId agent wt : String) : AgentSlot :=
  { s with
    task_id := some taskId
    agent_type := some agent
    worktree_path := some wt
    status := "running" }

/-- Embedding of `AgentSlot.release`. -/
def AgentSlot.release (s : AgentSlot) : AgentSlot :=
  { s with
    task_id := none
    agent_type := none
    worktree_path := none
    status := "idle" }

/-- The task fields `AgentPool` reads (`id` for slot bookkeeping, `priority`
for the queue ordering). -/
structure PoolTask where
  id : String
  priority : Int
  deriving DecidableEq, Repr

/-- Embedding of `AgentPool`: `max_agents` slots and the pending-task queue.
Status callbacks only notify observers (their exceptions are swallowed) and
do not affect pool state, so they are not modelled. -/
structure AgentPool where
  max_agents : Nat
  slots : List AgentSlot
  task_queue : List PoolTask
  deriving Repr

/-- Embedding of `AgentPool.__init__`. -/
def AgentPool.init (maxAgents : Nat) : AgentPool :=
  { max_agents := maxAgents
    slots := (List.range maxAgents).map (fun i => { slot_id := i + 1 })
    task_queue := [] }

/-- Embedding of `AgentPool.get_available_slot`: first idle slot. -/
def AgentPool.get_available_slot (p : AgentPool) : Option AgentSlot :=
  p.slots.find? AgentSlot.is_available

/-- In-place mutation of the first idle slot, as `assign_task` does through
the object reference returned by `get_available_slot`. -/
def assignFirst (taskId agent wt : String) :
    List AgentSlot → List AgentSlot × Option AgentSlot
  | [] => ([], none)
  | s :: rest =>
    if s.is_available then
      (s.assign taskId agent wt :: rest, some (s.assign taskId agent wt))
    else
      let (rest', r) := assignFirst taskId agent wt rest
      (s :: rest', r)

/-- Embedding of `AgentPool.assign_task`. -/
def AgentPool.assign_task (p : AgentPool) (taskId agent wt : String) :
    AgentPool × Option AgentSlot :=
  let (slots', r) := assignFirst taskId agent wt p.slots
  ({ p with slots := slots' }, r)

/-- Release of the first slot holding `taskId`, as `complete_task` and
`fail_task` do through `get_slot_by_task`; a no-op when no slot holds it. -/
def releaseByTask (taskId : String) : List AgentSlot → List AgentSlot
  | [] => []
  | s :: rest =>
    if s.task_id == some taskId then s.release :: rest
    else s :: releaseByTask taskId rest

/-- Embedding of `AgentPool.complete_task` / `AgentPool.fail_task` (they differ only in
the event they notify). -/
def AgentPool.release_task (p : AgentPool) (taskId : String) : AgentPool :=
  { p with slots := releaseByTask taskId p.slots }

/-- Embedding of `AgentPool.queue_task`. -/
def AgentPool.queue_task (p : AgentPool) (t : PoolTask) : AgentPool :=
  { p with task_queue := p.task_queue ++ [t] }

/-- Python's `task_queue.sort(key=lambda t: t.priority, reverse=True)`: a
stable sort placing higher priorities first. Stable sorts over the same key
order agree on every list, so Mathlib's stable `insertionSort` with the
non-strict descending relation is the same function. -/
def sortByPriorityDesc (l : List PoolTask) : List PoolTask :=
  l.insertionSort (fun a b => b.priority ≤ a.priority)

/-- Embedding of `AgentPool.dequeue_task`: sorts the queue by descending priority (ties
keep insertion order) and pops the front. -/
def AgentPool.dequeue_task (p : AgentPool) : AgentPool × Option PoolTask :=
  match sortByPriorityDesc p.task_queue with
  | [] => (p, none)
  | t :: rest => ({ p with task_queue := rest }, some t)

/-- The externally invokable `AgentPool` operations. -/
inductive PoolOp where
  | assign (taskId agent wt : String)
  | complete (taskId : String)
  | failTask (taskId : String)
  | queue (t : PoolTask)
  | dequeue

/-- Effect of one operation on the pool state. -/
def applyPoolOp (p : AgentPool) : PoolOp → AgentPool
  | .assign taskId agent wt => (p.assign_task taskId agent wt).1
  | .complete taskId => p.release_task taskId
  | .failTask taskId => p.release_task taskId
  | .queue t => p.queue_task t
  | .dequeue => p.dequeue_task.1

/-- Pool state after a sequence of operations on a freshly constructed
pool. -/
def poolReach (capacity : Nat) (ops : List PoolOp) : AgentPool :=
  ops.foldl applyPoolOp (AgentPool.init capacity)

/-- Number of slots in the `running` state. -/
def AgentPool.runningCount (p : AgentPool) : Nat :=
  p.slots.countP (fun s => s.status == "running")

/-- Embedding of `GitAutoMerge.merge` (tier 1): the checkout+merge git calls either
succeed (`.ok`) or raise with a message (`.error e`); a raised message
containing `CONFLICT` or `conflict` (case-sensitive, as in the source) is
reported as conflicts, anything else as a plain merge failure — both as
`(False, …)`. -/
def gitAutoMerge (sourceBranch targetBranch : String)
    (gitOutcome : Except String Unit) : Bool × String :=
  match gitOutcome with
  | .ok _ =>
      (true, "Successfully merged " ++ sourceBranch ++ " into " ++ targetBranch)
  | .error e =>
      if pyIn "CONFLICT" e || pyIn "conflict" e then
        (false, "Merge conflicts detected: " ++ e)
      else (false, "Merge failed: " ++ e)

/-- Embedding of `MergeOrchestrator.merge_task`: verify `task/<task_id>` exists, then try
the three strategies in order — tier 1 is `GitAutoMerge` over the native git
outcome, tiers 2 and 3 are the AI strategies whose subprocess-driven
outcomes are the `tier2` / `tier3` oracles. The strategy loop returns on the
first success and reports failure only after the last strategy fails. -/
def mergeTask (taskId targetBranch : String) (branchExists : Bool)
    (tier1Git : Except String Unit) (tier2 tier3 : Bool × String) :
    Bool × String :=
  if !branchExists then
    (false, "Source branch not found: task/" ++ taskId)
  else
    let sourceBranch := "task/" ++ taskId
    let r1 := gitAutoMerge sourceBranch targetBranch tier1Git
    if r1.1 then (true, "✓ Merged using Auto-merge: " ++ r1.2)
    else if tier2.1 then
      (true, "✓ Merged using AI conflict resolution: " ++ tier2.2)
    else if tier3.1 then
      (true, "✓ Merged using AI file regeneration: " ++ tier3.2)
    else (false, "✗ All merge strategies failed. Last error: " ++ tier3.2)

/-! ### Concrete instances used to exercise the model -/

/-- String-match criteria with a given promise and no extra config. -/
def critPlain (p : String) : CompletionCriteria :=
  { promise := p, verification_method := .string_match }

/-- A verifier whose agent never emits a promise tag. -/
def vNone : Verifier :=
  { extract_promise := fun _ => none
    verify := fun _ _ => { passed := false, reason := "r", method := .string_match } }

/-- A verifier that sees a promise exactly in the output `"done"` and whose
verification always passes. -/
def vDone : Verifier :=
  { extract_promise := fun out => if out == "done" then some "IMPLEMENTATION_COMPLETE" else none
    verify := fun _ _ => { passed := true, reason := "ok", method := .string_match } }

/-- Execution environment for the iteration-cap scenario: default ralph
config (enabled, per-loop max 10); the Implementation agent completes on its
first iteration, the later agents never emit a promise. -/
def mCap : ExecModel :=
  { cfg := {}
    criteriaFor := fun _ => critPlain "P"
    v := vDone
    ralphOut := fun stage _ => if stage == "Implementation" then "done" else "nope"
    tradSucc := fun _ _ => false
    tradOut := fun _ _ => "out" }

/-- Execution environment for spec scenario S2: ralph max 2, the agent
always answers `"still working"` and never emits a promise. -/
def mS2 : ExecModel :=
  { cfg := { max_iterations := 2 }
    criteriaFor := fun _ => critPlain "P"
    v := vNone
    ralphOut := fun _ _ => "still working"
    tradSucc := fun _ _ => false
    tradOut := fun _ _ => "out" }

/-- The state `RalphLoop.start` produces for task `T-1`, agent `coder`,
criteria `critPlain "P"` with a per-criteria cap of 1. -/
def stMax1 : RalphLoopState :=
  { task_id := "T-1"
    agent_type := "coder"
    iteration := 0
    max_iterations := 1
    completion_criteria := { critPlain "P" with max_iterations := some 1 } }

/-- A started-and-never-incremented loop state under the default config. -/
def stFresh : RalphLoopState :=
  { task_id := "T-1"
    agent_type := "coder"
    iteration := 0
    max_iterations := 10
    completion_criteria := critPlain "P" }

/-- Start a loop capped at one iteration, then call `increment` twice. -/
def opsTwoIncrements : List RalphOp :=
  [.start "T-1" "coder" { critPlain "P" with max_iterations := some 1 },
   .increment, .increment]

/-- External-method criteria whose dispatched verification raises an
exception with message `boom`. -/
def critBoom : CompletionCriteria :=
  { promise := "P"
    verification_method := .external
    extResult := .error "boom" }

/-- Execution environment with Ralph disabled: every stage runs through the
traditional path and succeeds on its first iteration. -/
def mTrad : ExecModel :=
  { cfg := { enabled := false }
    criteriaFor := fun _ => critPlain "P"
    v := vNone
    ralphOut := fun _ _ => "x"
    tradSucc := fun _ _ => true
    tradOut := fun _ _ => "IMPLEMENTATION COMPLETE" }

/-! ### Theorems -/

/-- Every branch of `should_continue` produces its new state through
`add_verification_result`. -/
lemma shouldContinueActive_state (v : Verifier) (st : RalphLoopState)
    (output : String) :
    ∃ a b c, (shouldContinueActive v st output).1 = st.addResult a b c := by
  unfold shouldContinueActive
  by_cases hp : (v.extract_promise output).getD "" = "" <;>
    by_cases hpass : (v.verify st.completion_criteria output).passed <;>
    by_cases hle : st.max_iterations ≤ st.iteration <;>
    simp [hp, hpass, hle, RalphLoopState.is_at_limit]

/-- The method `should_continue` never changes the iteration counter. -/
lemma shouldContinueActive_iteration (v : Verifier) (st : RalphLoopState)
    (output : String) :
    (shouldContinueActive v st output).1.iteration = st.iteration := by
  obtain ⟨a, b, c, h⟩ := shouldContinueActive_state v st output
  rw [h]; rfl

/-- The method `should_continue` never changes the iteration cap. -/
lemma shouldContinueActive_max (v : Verifier) (st : RalphLoopState)
    (output : String) :
    (shouldContinueActive v st output).1.max_iterations = st.max_iterations := by
  obtain ⟨a, b, c, h⟩ := shouldContinueActive_state v st output
  rw [h]; rfl

/-- The method `should_continue` answers `continue` only strictly below the iteration
cap: every `(True, …)` branch is guarded by `not is_at_limit`. -/
lemma shouldContinueActive_cont (v : Verifier) (st : RalphLoopState)
    (output : String)
    (h : (shouldContinueActive v st output).2.1 = true) :
    st.iteration < st.max_iterations := by
  by_cases hle : st.max_iterations ≤ st.iteration
  · exfalso
    revert h
    unfold shouldContinueActive
    by_cases hp : (v.extract_promise output).getD "" = "" <;>
      by_cases hpass : (v.verify st.completion_criteria output).passed <;>
      simp [hp, hpass, hle, RalphLoopState.is_at_limit]
  · omega

/-- C1: for every active Ralph loop and agent output, `should_continue`
behaves as specified: no extractable promise below the limit → continue,
reason "No completion promise found"; no promise at the limit → stop with
"Max iterations reached without completion promise"; promise verified →
stop with "Completion verified"; promise rejected below the limit →
continue with the failure reason; promise rejected at the limit → stop with
a reason carrying the last verification reason. In every case exactly one
verification record is appended to the history. -/
theorem claim1_should_continue (v : Verifier) (st : RalphLoopState)
    (output : String) :
    (((v.extract_promise output).getD "" = "" →
        st.iteration < st.max_iterations →
        (shouldContinueActive v st output).2 =
          (true, "No completion promise found"))
    ∧ ((v.extract_promise output).getD "" = "" →
        st.max_iterations ≤ st.iteration →
        (shouldContinueActive v st output).2 =
          (false, "Max iterations reached without completion promise"))
    ∧ ((v.extract_promise output).getD "" ≠ "" →
        (v.verify st.completion_criteria output).passed = true →
        (shouldContinueActive v st output).2 = (false, "Completion verified"))
    ∧ ((v.extract_promise output).getD "" ≠ "" →
        (v.verify st.completion_criteria output).passed = false →
        st.iteration < st.max_iterations →
        (shouldContinueActive v st output).2 =
          (true, "Verification failed: " ++
            (v.verify st.completion_criteria output).reason))
    ∧ ((v.extract_promise output).getD "" ≠ "" →
        (v.verify st.completion_criteria output).passed = false →
        st.max_iterations ≤ st.iteration →
        (shouldContinueActive v st output).2 =
          (false, "Max iterations reached. Last verification: " ++
            (v.verify st.completion_criteria output).reason)))
    ∧ ∃ r, (shouldContinueActive v st output).1.verification_results =
        st.verification_results ++ [r] := by
  unfold shouldContinueActive RalphLoopState.is_at_limit
  constructor
  · refine ⟨?_, ?_, ?_, ?_, ?_⟩
    · intro hp hlt
      simp [hp, Nat.not_le_of_lt hlt]
    · intro hp hle
      simp [hp, hle]
    · intro hp hpass
      simp [hp, hpass]
    · intro hp hpass hlt
      simp [hp, hpass, Nat.not_le_of_lt hlt]
    · intro hp hpass hle
      simp [hp, hpass, hle]
  · by_cases hp : (v.extract_promise output).getD "" = ""
    · by_cases hle : st.max_iterations ≤ st.iteration
      · exact ⟨⟨st.iteration, false, false,
          "Max iterations reached without completion promise"⟩,
          by simp [hp, hle, RalphLoopState.addResult]⟩
      · exact ⟨⟨st.iteration, false, false,
          "No completion promise found in output"⟩,
          by simp [hp, hle, RalphLoopState.addResult]⟩
    · by_cases hpass : (v.verify st.completion_criteria output).passed
      · exact ⟨⟨st.iteration, true, true,
          (v.verify st.completion_criteria output).reason⟩,
          by simp [hp, hpass, RalphLoopState.addResult]⟩
      · by_cases hle : st.max_iterations ≤ st.iteration
        · exact ⟨⟨st.iteration, true, false,
            (v.verify st.completion_criteria output).reason⟩,
            by simp [hp, hpass, hle, RalphLoopState.addResult]⟩
        · exact ⟨⟨st.iteration, true, false,
            (v.verify st.completion_criteria output).reason⟩,
            by simp [hp, hpass, hle, RalphLoopState.addResult]⟩

/-- Witness for C1 at a concrete input: the promise-free verifier on the
fresh state (iteration 0, max 10) continues with "No completion promise
found", and a record is appended. -/
theorem claim1_should_continue_witness :
    (shouldContinueActive vNone stFresh "Working").2 =
      (true, "No completion promise found")
    ∧ ∃ r, (shouldContinueActive vNone stFresh "Working").1.verification_results =
        stFresh.verification_results ++ [r] := by
  refine ⟨(claim1_should_continue vNone stFresh "Working").1.1 (by decide) (by decide),
    (claim1_should_continue vNone stFresh "Working").2⟩

/-- C7 counterexample: `increment` is unguarded, so the state reached by
start (cap 1) followed by two increments has `iteration = 2 >
max_iterations = 1` — the invariant does not hold for arbitrary operation
sequences. -/
theorem claim7_counterexample :
    (ralphReach {} vNone opsTwoIncrements).map
      (fun st => decide (st.iteration ≤ st.max_iterations)) = some false := by
  rfl

/-- C7 amended: under the driver discipline of
`execute_stage_with_ralph` — increment, ask `should_continue`, recurse only
on `continue` — a loop entered strictly below its cap never exceeds
`max_iterations` (which the loop never changes). Every intermediate state of
the run is itself such an entry point, so the bound holds at all times. -/
theorem claim7_amended (v : Verifier) (outOf : Nat → String) :
    ∀ (fuel : Nat) (st : RalphLoopState) (acc : List String),
      st.iteration < st.max_iterations →
      (runRalphLoop v outOf fuel st acc).1.iteration ≤ st.max_iterations ∧
      (runRalphLoop v outOf fuel st acc).1.max_iterations = st.max_iterations := by
  intro fuel
  induction fuel with
  | zero => intro st acc h; exact ⟨Nat.le_of_lt h, rfl⟩
  | succ n ih =>
    intro st acc h
    unfold runRalphLoop
    by_cases hc :
        (shouldContinueActive v (RalphLoop.increment st)
          (outOf (RalphLoop.increment st).iteration)).2.1 = true
    · have hlt := shouldContinueActive_cont v (RalphLoop.increment st)
        (outOf (RalphLoop.increment st).iteration) hc
      have hit := shouldContinueActive_iteration v (RalphLoop.increment st)
        (outOf (RalphLoop.increment st).iteration)
      have hmx := shouldContinueActive_max v (RalphLoop.increment st)
        (outOf (RalphLoop.increment st).iteration)
      have hlt' : (shouldContinueActive v (RalphLoop.increment st)
          (outOf (RalphLoop.increment st).iteration)).1.iteration <
          (shouldContinueActive v (RalphLoop.increment st)
            (outOf (RalphLoop.increment st).iteration)).1.max_iterations := by
        rw [hit, hmx]; exact hlt
      have := ih _ (acc ++ [outOf (RalphLoop.increment st).iteration]) hlt'
      simp only [hc, if_true]
      constructor
      · calc (runRalphLoop v outOf n _ _).1.iteration ≤ _ := this.1
          _ = st.max_iterations := by
            rw [hmx]; rfl
      · rw [this.2, hmx]; rfl
    · simp only [hc, if_false, Bool.false_eq_true]
      have hit := shouldContinueActive_iteration v (RalphLoop.increment st)
        (outOf (RalphLoop.increment st).iteration)
      have hmx := shouldContinueActive_max v (RalphLoop.increment st)
        (outOf (RalphLoop.increment st).iteration)
      refine ⟨?_, by rw [hmx]; rfl⟩
      rw [hit]
      show st.iteration + 1 ≤ st.max_iterations
      omega

/-- Witness for C7 amended: the promise-free verifier run from the fresh
state (iteration 0 < cap 10) stays within the cap. -/
theorem claim7_amended_witness :
    (runRalphLoop vNone (fun _ => "w") 11 stFresh []).1.iteration ≤
      stFresh.max_iterations ∧
    (runRalphLoop vNone (fun _ => "w") 11 stFresh []).1.max_iterations =
      stFresh.max_iterations :=
  claim7_amended vNone (fun _ => "w") 11 stFresh [] (by decide)

/-- C8 counterexample: a loop that has been started and never incremented
(iteration 0) does **not** make `should_continue` raise — it returns a
normal continue result; the `RuntimeError` is tied to `self.state is None`,
not to iteration 0. -/
theorem claim8_counterexample :
    RalphLoop.start {} "T-1" "coder" (critPlain "P") = .ok stFresh
    ∧ stFresh.iteration = 0
    ∧ RalphLoop.should_continue vNone (some stFresh) "Working on it" =
        .ok (stFresh.addResult false false "No completion promise found in output",
          true, "No completion promise found") := by
  refine ⟨rfl, rfl, rfl⟩

/-- C8 amended: `should_continue` raises `RuntimeError("No active Ralph
loop")` exactly when no loop is active (`state = None`, i.e. before `start`
or after `finish`/`reset`); on any active state — in particular a started
loop still at iteration 0 — it returns a normal `(continue, reason)`
result. -/
theorem claim8_amended (v : Verifier) (output : String) :
    RalphLoop.should_continue v none output = .error "No active Ralph loop"
    ∧ ∀ st : RalphLoopState, ∃ r,
        RalphLoop.should_continue v (some st) output = .ok r :=
  ⟨rfl, fun st => ⟨shouldContinueActive v st output, rfl⟩⟩

/-- Witness for C8 amended at a concrete input. -/
theorem claim8_amended_witness :
    RalphLoop.should_continue vNone none "w" = .error "No active Ralph loop"
    ∧ ∃ r, RalphLoop.should_continue vNone (some stFresh) "w" = .ok r :=
  ⟨(claim8_amended vNone "w").1, (claim8_amended vNone "w").2 stFresh⟩

/-- C3 counterexample: with an empty output, an empty `check_for` and no
negative patterns, `_verify_semantic` does **not** pass vacuously — the
`if not output` guard fails it first. -/
theorem claim3_counterexample :
    verifySemantic "" [] [] = (false, "No output to verify") := by
  rfl

/-- C3 amended: restricted to non-empty outputs the claim holds — any
case-insensitive negative-pattern hit fails; otherwise the verification
passes iff every `check_for` criterion reaches the 30% token threshold
(empty `check_for` passes vacuously), and a failure reason lists at most
three missing criteria. An empty output always fails with
"No output to verify", whatever the config. -/
theorem claim3_amended (output : String) (check_for negative_patterns : List String) :
    (output = "" →
      verifySemantic output check_for negative_patterns =
        (false, "No output to verify"))
    ∧ (output ≠ "" →
        (∃ p ∈ negative_patterns, pyIn (pyLower p) (pyLower output) = true) →
        (verifySemantic output check_for negative_patterns).1 = false)
    ∧ (output ≠ "" →
        (∀ p ∈ negative_patterns, pyIn (pyLower p) (pyLower output) = false) →
        check_for = [] →
        verifySemantic output check_for negative_patterns =
          (true, "No specific criteria to verify"))
    ∧ (output ≠ "" →
        (∀ p ∈ negative_patterns, pyIn (pyLower p) (pyLower output) = false) →
        ((verifySemantic output check_for negative_patterns).1 = true ↔
          ∀ c ∈ check_for, criterionMissing output c = false))
    ∧ (output ≠ "" →
        (∀ p ∈ negative_patterns, pyIn (pyLower p) (pyLower output) = false) →
        (verifySemantic output check_for negative_patterns).1 = false →
        ∃ missing, missing = check_for.filter (criterionMissing output)
          ∧ missing ≠ []
          ∧ (missing.take 3).length ≤ 3
          ∧ ((∃ c, missing = [c] ∧
                (verifySemantic output check_for negative_patterns).2 =
                  "Criterion not evident: " ++ c)
             ∨ (2 ≤ missing.length ∧
                (verifySemantic output check_for negative_patterns).2 =
                  "Criteria not evident: " ++
                    String.intercalate ", " (missing.take 3)))) := by
  by_cases hout : output = ""
  · refine ⟨fun _ => by simp [verifySemantic, hout], ?_, ?_, ?_, ?_⟩ <;>
      intro h <;> exact absurd hout h
  · have hout' : ¬output = "" := hout
    refine ⟨fun h => absurd h hout, ?_, ?_, ?_, ?_⟩
    · rintro _ ⟨p, hp, hmatch⟩
      have hsome : (negative_patterns.find?
          (fun q => pyIn (pyLower q) (pyLower output))).isSome :=
        List.find?_isSome.mpr ⟨p, hp, hmatch⟩
      obtain ⟨q, hq⟩ := Option.isSome_iff_exists.mp hsome
      simp [verifySemantic, hout, hq]
    · intro _ hneg hcf
      have hnone : negative_patterns.find?
          (fun q => pyIn (pyLower q) (pyLower output)) = none :=
        List.find?_eq_none.mpr (fun q hq => by simp [hneg q hq])
      simp [verifySemantic, hout, hnone, hcf]
    · intro _ hneg
      have hnone : negative_patterns.find?
          (fun q => pyIn (pyLower q) (pyLower output)) = none :=
        List.find?_eq_none.mpr (fun q hq => by simp [hneg q hq])
      by_cases hcf : check_for = []
      · simp [verifySemantic, hout, hnone, hcf]
      · have hne : check_for.isEmpty = false := by
          simpa [List.isEmpty_iff] using hcf
        rcases hm : check_for.filter (criterionMissing output) with _ | ⟨c, cs⟩
        · have hall : ∀ c ∈ check_for, criterionMissing output c = false := by
            intro c hc
            by_contra hbad
            have : c ∈ check_for.filter (criterionMissing output) :=
              List.mem_filter.mpr ⟨hc, by simpa using hbad⟩
            simp [hm] at this
          have hres : (verifySemantic output check_for negative_patterns).1 = true := by
            simp [verifySemantic, hout, hnone, hne, hm]
          exact ⟨fun _ => hall, fun _ => hres⟩
        · have hcmem : c ∈ check_for.filter (criterionMissing output) := by
            rw [hm]; exact List.mem_cons_self c cs
          have hcmiss := List.mem_filter.mp hcmem
          constructor
          · intro htrue
            exfalso
            revert htrue
            rcases cs with _ | ⟨c2, cs2⟩ <;>
              simp [verifySemantic, hout, hnone, hne, hm]
          · intro hall
            exact absurd (hall c hcmiss.1) (by simp [hcmiss.2])
    · intro _ hneg hfail
      have hnone : negative_patterns.find?
          (fun q => pyIn (pyLower q) (pyLower output)) = none :=
        List.find?_eq_none.mpr (fun q hq => by simp [hneg q hq])
      by_cases hcf : check_for = []
      · exfalso
        rw [verifySemantic] at hfail
        simp [hout, hnone, hcf] at hfail
      · have hne : check_for.isEmpty = false := by
          simpa [List.isEmpty_iff] using hcf
        refine ⟨check_for.filter (criterionMissing output), rfl, ?_, ?_, ?_⟩
        · intro hm
          rw [verifySemantic] at hfail
          simp [hout, hnone, hne, hm] at hfail
        · exact List.length_take_le 3 _
        · rcases hm : check_for.filter (criterionMissing output) with _ | ⟨c, cs⟩
          · exfalso
            rw [verifySemantic] at hfail
            simp [hout, hnone, hne, hm] at hfail
          · rcases cs with _ | ⟨c2, cs2⟩
            · refine Or.inl ⟨c, rfl, ?_⟩
              simp [verifySemantic, hout, hnone, hne, hm]
            · refine Or.inr ⟨by simp, ?_⟩
              simp [verifySemantic, hout, hnone, hne, hm]

/-- Witness for C3 amended at concrete inputs: a negative-pattern hit fails,
and an empty `check_for` with no negatives passes on a non-empty output. -/
theorem claim3_amended_witness :
    (verifySemantic "there was an ERROR here" [] ["error"]).1 = false
    ∧ verifySemantic "all good" [] [] = (true, "No specific criteria to verify") :=
  ⟨(claim3_amended "there was an ERROR here" [] ["error"]).2.1 (by decide)
      ⟨"error", by decide, by decide⟩,
    (claim3_amended "all good" [] []).2.2.1 (by decide) (by simp) rfl⟩

/-- The early-exit branch of the multi-stage loop always reports failure. -/
lemma msRun_inl_false (output : String) (ra : Bool) :
    ∀ (stages : List MSStage) (acc : List StageResult) (r : Bool × String),
      msRun output ra stages acc = Sum.inl r → r.1 = false := by
  intro stages
  induction stages with
  | nil => intro acc r h; simp [msRun] at h
  | cons st rest ih =>
    intro acc r h
    rw [msRun] at h
    rcases hme : VerificationMethod.ofString st.method with _ | m
    · rw [hme] at h
      exact ih _ _ h
    · rw [hme] at h
      dsimp only at h
      by_cases hex : (!(runMSMethod st output m).1 && st.required && ra) = true
      · rw [if_pos hex] at h
        cases h
        rfl
      · rw [if_neg hex] at h
        exact ih _ _ h

/-- If the accumulator already holds a failed required result, or some
remaining stage has an unrecognised method and is required, then a full run
of the loop ends with a failed required result among the collected ones. -/
lemma msRun_keeps_failed (output : String) (ra : Bool) :
    ∀ (stages : List MSStage) (acc : List StageResult),
      ((∃ r ∈ acc, r.required = true ∧ r.passed = false) ∨
        ∃ st ∈ stages, VerificationMethod.ofString st.method = none ∧
          st.required = true) →
      ∀ results, msRun output ra stages acc = Sum.inr results →
        ∃ r ∈ results, r.required = true ∧ r.passed = false := by
  intro stages
  induction stages with
  | nil =>
    intro acc hbad results h
    rcases hbad with hacc | ⟨st, hst, _⟩
    · simp only [msRun] at h
      cases h
      exact hacc
    · simp at hst
  | cons st rest ih =>
    intro acc hbad results h
    rw [msRun] at h
    rcases hme : VerificationMethod.ofString st.method with _ | m
    · rw [hme] at h
      refine ih _ ?_ _ h
      rcases hbad with hacc | ⟨st', hst', hst'none, hst'req⟩
      · obtain ⟨r, hr, hreq, hpass⟩ := hacc
        exact Or.inl ⟨r, List.mem_append_left _ hr, hreq, hpass⟩
      · rcases List.mem_cons.mp hst' with rfl | hmem
        · exact Or.inl ⟨_, List.mem_append_right _ (List.mem_singleton.mpr rfl),
            hst'req, rfl⟩
        · exact Or.inr ⟨st', hmem, hst'none, hst'req⟩
    · rw [hme] at h
      dsimp only at h
      by_cases hex : (!(runMSMethod st output m).1 && st.required && ra) = true
      · rw [if_pos hex] at h
        cases h
      · rw [if_neg hex] at h
        refine ih _ ?_ _ h
        rcases hbad with hacc | ⟨st', hst', hst'none, hst'req⟩
        · obtain ⟨r, hr, hreq, hpass⟩ := hacc
          exact Or.inl ⟨r, List.mem_append_left _ hr, hreq, hpass⟩
        · rcases List.mem_cons.mp hst' with rfl | hmem
          · rw [hme] at hst'none
            cases hst'none
          · exact Or.inr ⟨st', hmem, hst'none, hst'req⟩

/-- When every stage is a nested `multi_stage` stage, the loop never exits
early and every collected result is a pass. -/
lemma msRun_all_nested (output : String) (ra : Bool) :
    ∀ (stages : List MSStage) (acc : List StageResult),
      (∀ st ∈ stages, st.method = "multi_stage") →
      (∀ r ∈ acc, r.passed = true) →
      ∃ results, msRun output ra stages acc = Sum.inr results ∧
        ∀ r ∈ results, r.passed = true := by
  intro stages
  induction stages with
  | nil => intro acc _ hacc; exact ⟨acc, rfl, hacc⟩
  | cons st rest ih =>
    intro acc hall hacc
    have hm : st.method = "multi_stage" := hall st (List.mem_cons_self st rest)
    have hme : VerificationMethod.ofString st.method = some .multi_stage := by
      rw [hm]; rfl
    have hrun : runMSMethod st output VerificationMethod.multi_stage =
        (true, "Skipped (unsupported in multi-stage)") := rfl
    have hacc' : ∀ r ∈ acc ++
        [(⟨st.name, (runMSMethod st output .multi_stage).1,
          (runMSMethod st output .multi_stage).2, st.required⟩ : StageResult)],
        r.passed = true := by
      intro r hr
      rcases List.mem_append.mp hr with hl | hs
      · exact hacc r hl
      · rw [List.mem_singleton.mp hs, hrun]
    obtain ⟨results, hres, hpass⟩ :=
      ih _ (fun s hs => hall s (List.mem_cons_of_mem st hs)) hacc'
    refine ⟨results, ?_, hpass⟩
    rw [msRun, hme]
    dsimp only
    rw [hrun]
    simpa using hres

/-- C6 counterexample: a required nested `multi_stage` stage does **not**
fail — `_verify_multi_stage` skips it as passed, so the overall verification
succeeds, contradicting the claim that it must fail with `require_all`. -/
theorem claim6_counterexample :
    verifyMultiStage "output" [{ name := "nested", method := "multi_stage" }] true =
      (true, "All 1/1 verification stages passed") := by
  rfl

/-- C6 amended: a stage whose declared method is unknown to the
`VerificationMethod` enum fails that stage, and a required such stage makes
the overall multi_stage verification fail (with or without `require_all`).
A nested `multi_stage` stage, by contrast, is skipped and counted as
passed: a config whose stages are all nested multi_stage verifies
successfully. -/
theorem claim6_amended (output : String) (stages : List MSStage)
    (require_all : Bool) :
    (∀ st ∈ stages, VerificationMethod.ofString st.method = none →
      st.required = true →
      (verifyMultiStage output stages require_all).1 = false)
    ∧ (stages ≠ [] → (∀ st ∈ stages, st.method = "multi_stage") →
      (verifyMultiStage output stages require_all).1 = true) := by
  constructor
  · intro st hmem hnone hreq
    have hne : stages.isEmpty = false := by
      simpa [List.isEmpty_iff] using List.ne_nil_of_mem hmem
    rw [verifyMultiStage, hne]
    rcases hrun : msRun output require_all stages [] with r | results
    · simp only [Bool.false_eq_true, if_false]
      exact msRun_inl_false output require_all stages [] r hrun
    · obtain ⟨r, hr, hrreq, hrpass⟩ :=
        msRun_keeps_failed output require_all stages []
          (Or.inr ⟨st, hmem, hnone, hreq⟩) results hrun
      have hfail : results.filter (fun x => x.required && !x.passed) ≠ [] := by
        intro hnil
        have := List.filter_eq_nil_iff.mp hnil r hr
        simp [hrreq, hrpass] at this
      have hfe : (results.filter (fun x => x.required && !x.passed)).isEmpty = false := by
        simpa [List.isEmpty_iff] using hfail
      simp [hfe]
  · intro hne hall
    have hne' : stages.isEmpty = false := by
      simpa [List.isEmpty_iff] using hne
    obtain ⟨results, hres, hpass⟩ :=
      msRun_all_nested output require_all stages [] hall (by simp)
    have hfilter : results.filter (fun x => x.required && !x.passed) = [] :=
      List.filter_eq_nil_iff.mpr (fun r hr => by simp [hpass r hr])
    rw [verifyMultiStage, hne']
    simp [hres, hfilter]

/-- Witness for C6 amended at concrete inputs: an unknown-method required
stage fails the whole verification, and a nested multi_stage stage passes
it. -/
theorem claim6_amended_witness :
    (verifyMultiStage "out" [{ name := "bad", method := "fancy" }] true).1 = false
    ∧ (verifyMultiStage "out" [{ name := "nested", method := "multi_stage" }] false).1 = true :=
  ⟨(claim6_amended "out" [{ name := "bad", method := "fancy" }] true).1
      _ (List.mem_singleton.mpr rfl) rfl rfl,
    (claim6_amended "out" [{ name := "nested", method := "multi_stage" }] false).2
      (List.cons_ne_nil _ _) (fun st hst => by rw [List.mem_singleton.mp hst])⟩

/-- C10: `PromiseVerifier.verify` is total — it always returns a
`VerificationResult` carrying the criteria's verification method and the
measured duration in milliseconds; when the dispatched method raises, the
result is a failure whose reason starts with `Verification error:`, and when
it returns normally the result carries its pass flag and reason. -/
theorem claim10_verify_total (criteria : CompletionCriteria) (output : String)
    (d : Nat) :
    (PromiseVerifier.verify criteria output d).method = criteria.verification_method
    ∧ (PromiseVerifier.verify criteria output d).duration_ms = d
    ∧ (∀ e, runVerifyMethod criteria output = .error e →
        (PromiseVerifier.verify criteria output d).passed = false ∧
        (PromiseVerifier.verify criteria output d).reason = "Verification error: " ++ e)
    ∧ (∀ pr, runVerifyMethod criteria output = .ok pr →
        (PromiseVerifier.verify criteria output d).passed = pr.1 ∧
        (PromiseVerifier.verify criteria output d).reason = pr.2) := by
  rcases h : runVerifyMethod criteria output with e | pr <;>
    simp [PromiseVerifier.verify, h]

/-- Witness for C10 at a concrete input: an external verification that
raises `boom` is converted into a failed result with the method and
duration preserved. -/
theorem claim10_verify_total_witness :
    (PromiseVerifier.verify critBoom "output" 5).passed = false
    ∧ (PromiseVerifier.verify critBoom "output" 5).reason = "Verification error: boom"
    ∧ (PromiseVerifier.verify critBoom "output" 5).method = .external
    ∧ (PromiseVerifier.verify critBoom "output" 5).duration_ms = 5 := by
  obtain ⟨hm, hd, herr, _⟩ := claim10_verify_total critBoom "output" 5
  obtain ⟨hp, hr⟩ := herr "boom" rfl
  exact ⟨hp, hr, hm, hd⟩

/-- C5 counterexample: a Tier-1 failure that is **not** a merge conflict
(git raised `fatal: index locked`) does not make `merge_task` return failure
immediately — Tier 2 runs and its success is returned. -/
theorem claim5_counterexample :
    mergeTask "T-1" "main" true (.error "fatal: index locked")
      (true, "resolved 1 file") (false, "x") =
      (true, "✓ Merged using AI conflict resolution: resolved 1 file") := by
  rfl

/-- C5 amended: `merge_task` treats every Tier-1 failure alike — whatever
the git error message (conflict or not), it proceeds to Tier 2, then Tier 3,
and reports failure only after the last strategy fails. -/
theorem claim5_amended (taskId target e : String) (tier2 tier3 : Bool × String) :
    (tier2.1 = true →
      mergeTask taskId target true (.error e) tier2 tier3 =
        (true, "✓ Merged using AI conflict resolution: " ++ tier2.2))
    ∧ (tier2.1 = false → tier3.1 = true →
      mergeTask taskId target true (.error e) tier2 tier3 =
        (true, "✓ Merged using AI file regeneration: " ++ tier3.2))
    ∧ (tier2.1 = false → tier3.1 = false →
      mergeTask taskId target true (.error e) tier2 tier3 =
        (false, "✗ All merge strategies failed. Last error: " ++ tier3.2)) := by
  have h1 : (gitAutoMerge ("task/" ++ taskId) target (.error e)).1 = false := by
    unfold gitAutoMerge
    by_cases hc : (pyIn "CONFLICT" e || pyIn "conflict" e) = true <;> simp [hc]
  refine ⟨?_, ?_, ?_⟩ <;> intro h2 <;>
    simp [mergeTask, h1, h2]

/-- Witness for C5 amended at a concrete input: with a non-conflict Tier-1
error and both AI tiers failing, the orchestrator reports that all
strategies failed (so Tier 2 and 3 were indeed attempted). -/
theorem claim5_amended_witness :
    mergeTask "T-9" "main" true (.error "fatal: bad object")
      (false, "no resolution") (false, "regeneration failed") =
      (false, "✗ All merge strategies failed. Last error: regeneration failed") :=
  (claim5_amended "T-9" "main" "fatal: bad object"
    (false, "no resolution") (false, "regeneration failed")).2.2 rfl rfl

/-- The traditional stage loop never pushes the running total past the
global cap it checks on every pass. -/
lemma tradLoop_le (succ : Nat → Bool) (outOf : Nat → String) (maxTotal : Nat) :
    ∀ (fuel it total : Nat) (lastOut : Option String),
      total ≤ maxTotal →
      (tradLoop succ outOf maxTotal fuel it total lastOut).1 ≤ maxTotal := by
  intro fuel
  induction fuel with
  | zero => intro it total lastOut h; exact h
  | succ n ih =>
    intro it total lastOut h
    rw [tradLoop]
    by_cases hlt : total < maxTotal
    · rw [if_pos hlt]
      by_cases hs : succ (it + 1) = true
      · rw [if_pos hs]; exact hlt
      · rw [if_neg hs]; exact ih _ _ _ hlt
    · rw [if_neg hlt]; exact h

/-- With the Ralph path disabled every stage goes through
`_execute_stage_traditional`, and the running total stays within the global
cap through the whole pipeline. -/
lemma execGo_le (m : ExecModel) (h : (m.ralphEnabled && m.hasSpec) = false) :
    ∀ (pipeline : List Stage) (total : Nat),
      total ≤ maxTotalIterations →
      (execGo m pipeline total).iteration ≤ maxTotalIterations := by
  intro pipeline
  induction pipeline with
  | nil => intro total ht; exact ht
  | cons stage rest ih =>
    intro total ht
    rw [execGo]
    have hstage : execStage m stage total =
        { newTotal := (execStageTraditional (m.tradSucc stage.name)
            (m.tradOut stage.name) stage.max_iterations total).1
          success := (execStageTraditional (m.tradSucc stage.name)
            (m.tradOut stage.name) stage.max_iterations total).2.1
          output := (execStageTraditional (m.tradSucc stage.name)
            (m.tradOut stage.name) stage.max_iterations total).2.2
          ralph_iterations := 0 } := by
      rw [execStage, h]
      rfl
    have hle : (execStage m stage total).newTotal ≤ maxTotalIterations := by
      rw [hstage]
      exact tradLoop_le _ _ _ _ _ _ _ ht
    by_cases hs : (execStage m stage total).success = true
    · rw [if_pos hs]
      exact ih _ hle
    · rw [if_neg hs]
      exact hle

/-- C2 counterexample: with the default Ralph config and a task that passes
Implementation on its first iteration but never satisfies Code Review, the
sum of iterations across stages reaches 11 > 10 — the ralph execution path
never consults the global `max_total_iterations` cap. -/
theorem claim2_counterexample :
    mCap.ralphEnabled = true
    ∧ (executeTask mCap DEFAULT_PIPELINE).iteration = 11 := by
  exact ⟨rfl, by decide⟩

/-- C2 amended: the global 10-iteration cap on the per-task total holds only
when Ralph-loop execution is not used (Ralph disabled or no completion
spec), i.e. when every stage runs `_execute_stage_traditional`; the Ralph
path accumulates its own per-loop iteration counts without consulting the
cap and can exceed it. -/
theorem claim2_amended (m : ExecModel) (pipeline : List Stage)
    (h : (m.ralphEnabled && m.hasSpec) = false) :
    (executeTask m pipeline).iteration ≤ 10 :=
  execGo_le m h pipeline 0 (by decide)

/-- Witness for C2 amended: the Ralph-disabled environment stays within the
cap on the default pipeline. -/
theorem claim2_amended_witness :
    (executeTask mTrad DEFAULT_PIPELINE).iteration ≤ 10 :=
  claim2_amended mTrad DEFAULT_PIPELINE rfl

/-- A failed pipeline run resets the task to `todo`, names a pipeline stage
as `failure_stage`, records a `failure_reason`, and any recorded
`ralph_iterations` count is positive. -/
lemma execGo_failed (m : ExecModel) :
    ∀ (pipeline : List Stage) (total : Nat),
      (execGo m pipeline total).success = false →
      (execGo m pipeline total).status = .todo
      ∧ (∃ st ∈ pipeline, (execGo m pipeline total).failure_stage = some st.name)
      ∧ ((execGo m pipeline total).failure_reason).isSome = true
      ∧ (∀ k, (execGo m pipeline total).ralph_iterations_meta = some k → 0 < k) := by
  intro pipeline
  induction pipeline with
  | nil => intro total h; cases h
  | cons stage rest ih =>
    intro total h
    rw [execGo] at h ⊢
    by_cases hs : (execStage m stage total).success = true
    · rw [if_pos hs] at h ⊢
      obtain ⟨h1, ⟨st, hst, h2⟩, h3, h4⟩ := ih _ h
      exact ⟨h1, ⟨st, List.mem_cons_of_mem _ hst, h2⟩, h3, h4⟩
    · rw [if_neg hs] at h ⊢
      refine ⟨rfl, ⟨stage, List.mem_cons_self _ _, rfl⟩, rfl, ?_⟩
      intro k hk
      dsimp only at hk
      by_cases hgt : 0 < (execStage m stage total).ralph_iterations
      · rw [if_pos hgt] at hk
        cases hk
        exact hgt
      · rw [if_neg hgt] at hk
        cases hk

/-- C4: whenever a pipeline stage fails, `execute_task` returns failure with
the task reset to `todo`, `failure_stage` naming a stage of the pipeline,
a recorded `failure_reason`, and (exactly when Ralph iterations occurred) a
positive `ralph_iterations`; in particular the S2 scenario — ralph cap 2,
coder never emitting a promise — fails with
`failure_stage = "Implementation"` and `ralph_iterations = 2`. -/
theorem claim4_failure_metadata :
    (∀ (m : ExecModel) (pipeline : List Stage),
      (executeTask m pipeline).success = false →
      (executeTask m pipeline).status = .todo
      ∧ (∃ st ∈ pipeline, (executeTask m pipeline).failure_stage = some st.name)
      ∧ ((executeTask m pipeline).failure_reason).isSome = true
      ∧ (∀ k, (executeTask m pipeline).ralph_iterations_meta = some k → 0 < k))
    ∧ (executeTask mS2 DEFAULT_PIPELINE).success = false
    ∧ (executeTask mS2 DEFAULT_PIPELINE).status = .todo
    ∧ (executeTask mS2 DEFAULT_PIPELINE).failure_stage = some "Implementation"
    ∧ (executeTask mS2 DEFAULT_PIPELINE).ralph_iterations_meta = some 2 := by
  refine ⟨fun m pipeline h => execGo_failed m pipeline 0 h, ?_, ?_, ?_, ?_⟩ <;> rfl

/-- Witness for C4's universal part at the concrete S2 environment. -/
theorem claim4_failure_metadata_witness :
    (executeTask mS2 DEFAULT_PIPELINE).status = .todo
    ∧ ∃ st ∈ DEFAULT_PIPELINE,
        (executeTask mS2 DEFAULT_PIPELINE).failure_stage = some st.name :=
  let h := (claim4_failure_metadata).1 mS2 DEFAULT_PIPELINE (by rfl)
  ⟨h.1, h.2.1⟩

instance : IsTotal PoolTask (fun a b => b.priority ≤ a.priority) :=
  ⟨fun a b => le_total b.priority a.priority⟩

instance : IsTrans PoolTask (fun a b => b.priority ≤ a.priority) :=
  ⟨fun _ _ _ hab hbc => le_trans hbc hab⟩

/-- Assigning mutates one slot in place: the slot count is unchanged. -/
lemma assignFirst_length (taskId agent wt : String) :
    ∀ l : List AgentSlot, (assignFirst taskId agent wt l).1.length = l.length := by
  intro l
  induction l with
  | nil => rfl
  | cons s rest ih =>
    rw [assignFirst]
    by_cases hs : s.is_available = true
    · rw [if_pos hs]
      simp
    · rw [if_neg hs]
      simpa using ih

/-- Releasing mutates one slot in place: the slot count is unchanged. -/
lemma releaseByTask_length (taskId : String) :
    ∀ l : List AgentSlot, (releaseByTask taskId l).length = l.length := by
  intro l
  induction l with
  | nil => rfl
  | cons s rest ih =>
    rw [releaseByTask]
    by_cases hs : (s.task_id == some taskId) = true
    · rw [if_pos hs]
      simp
    · rw [if_neg hs]
      simpa using ih

/-- No pool operation changes the number of slots. -/
lemma applyPoolOp_slots_length (p : AgentPool) (op : PoolOp) :
    ((applyPoolOp p op).slots).length = p.slots.length := by
  cases op with
  | assign taskId agent wt =>
    simpa [applyPoolOp, AgentPool.assign_task] using
      assignFirst_length taskId agent wt p.slots
  | complete taskId =>
    simpa [applyPoolOp, AgentPool.release_task] using
      releaseByTask_length taskId p.slots
  | failTask taskId =>
    simpa [applyPoolOp, AgentPool.release_task] using
      releaseByTask_length taskId p.slots
  | queue t => rfl
  | dequeue =>
    rw [applyPoolOp, AgentPool.dequeue_task]
    rcases h : sortByPriorityDesc p.task_queue with _ | ⟨t, rest⟩ <;> rfl

/-- A pool reached from `AgentPool(capacity)` always has exactly `capacity`
slots. -/
lemma poolReach_slots_length (capacity : Nat) (ops : List PoolOp) :
    (poolReach capacity ops).slots.length = capacity := by
  have hgen : ∀ (l : List PoolOp) (p : AgentPool),
      ((l.foldl applyPoolOp p).slots).length = p.slots.length := by
    intro l
    induction l with
    | nil => intro p; rfl
    | cons op rest ih =>
      intro p
      rw [List.foldl_cons, ih, applyPoolOp_slots_length]
  rw [poolReach, hgen]
  simp [AgentPool.init]

/-- The method `assign_task` returns `None` exactly when no slot is idle. -/
lemma assignFirst_none (taskId agent wt : String) :
    ∀ l : List AgentSlot,
      ((assignFirst taskId agent wt l).2 = none ↔
        ∀ s ∈ l, s.is_available = false) := by
  intro l
  induction l with
  | nil => simp [assignFirst]
  | cons s rest ih =>
    rw [assignFirst]
    by_cases hs : s.is_available = true
    · rw [if_pos hs]
      simp only [List.mem_cons]
      constructor
      · intro h; cases h
      · intro h
        have := h s (Or.inl rfl)
        rw [hs] at this
        cases this
    · rw [if_neg hs]
      dsimp only
      rw [ih]
      constructor
      · intro h t ht
        rcases List.mem_cons.mp ht with rfl | hmem
        · simpa using hs
        · exact h t hmem
      · intro h t ht
        exact h t (List.mem_cons_of_mem _ ht)

/-- C9: pool invariants — the running-slot count never exceeds capacity on
any reachable state; `assign` returns null exactly when no slot is idle; a
capacity-0 pool refuses every `assign` while `queue_task` appends and
`dequeue_task` pops a highest-priority queued task. -/
theorem claim9_pool_invariants :
    (∀ (capacity : Nat) (ops : List PoolOp),
      (poolReach capacity ops).runningCount ≤ capacity)
    ∧ (∀ (p : AgentPool) (taskId agent wt : String),
      ((p.assign_task taskId agent wt).2 = none ↔
        ∀ s ∈ p.slots, s.is_available = false))
    ∧ (∀ (ops : List PoolOp) (taskId agent wt : String),
      ((poolReach 0 ops).assign_task taskId agent wt).2 = none)
    ∧ (∀ (p : AgentPool) (t : PoolTask),
      (p.queue_task t).task_queue = p.task_queue ++ [t])
    ∧ (∀ p : AgentPool, p.task_queue ≠ [] →
      ∃ t p', p.dequeue_task = (p', some t) ∧ t ∈ p.task_queue ∧
        ∀ u ∈ p.task_queue, u.priority ≤ t.priority) := by
  refine ⟨?_, ?_, ?_, ?_, ?_⟩
  · intro capacity ops
    calc (poolReach capacity ops).runningCount
        ≤ (poolReach capacity ops).slots.length := List.countP_le_length _
      _ = capacity := poolReach_slots_length capacity ops
  · intro p taskId agent wt
    exact assignFirst_none taskId agent wt p.slots
  · intro ops taskId agent wt
    have h0 : (poolReach 0 ops).slots = [] :=
      List.length_eq_zero.mp (poolReach_slots_length 0 ops)
    simp [AgentPool.assign_task, h0, assignFirst]
  · intro p t
    rfl
  · intro p hne
    have hperm : List.Perm (sortByPriorityDesc p.task_queue) p.task_queue :=
      List.perm_insertionSort _ _
    have hsorted : List.Sorted (fun a b => b.priority ≤ a.priority)
        (sortByPriorityDesc p.task_queue) :=
      List.sorted_insertionSort _ _
    rcases hq : sortByPriorityDesc p.task_queue with _ | ⟨t, rest⟩
    · exfalso
      apply hne
      have hlen := hperm.length_eq
      rw [hq] at hlen
      exact List.length_eq_zero.mp hlen.symm
    · refine ⟨t, { p with task_queue := rest }, ?_, ?_, ?_⟩
      · rw [AgentPool.dequeue_task, hq]
      · exact (hperm.mem_iff).mp (hq ▸ List.mem_cons_self t rest)
      · intro u hu
        have humem : u ∈ sortByPriorityDesc p.task_queue :=
          (hperm.mem_iff).mpr hu
        rw [hq] at humem
        rcases List.mem_cons.mp humem with rfl | hmem
        · exact le_refl _
        · rw [hq] at hsorted
          exact (List.sorted_cons.mp hsorted).1 u hmem

/-- Witness for C9 at a concrete input: with tasks of priority 1 and 5
queued into a capacity-0 pool, `dequeue_task` hands back a queued task of
maximal priority. -/
theorem claim9_pool_invariants_witness :
    ∃ t p',
      ((AgentPool.init 0).queue_task ⟨"a", 1⟩ |>.queue_task ⟨"b", 5⟩).dequeue_task
        = (p', some t)
      ∧ t ∈ ((AgentPool.init 0).queue_task ⟨"a", 1⟩ |>.queue_task ⟨"b", 5⟩).task_queue
      ∧ ∀ u ∈ ((AgentPool.init 0).queue_task ⟨"a", 1⟩ |>.queue_task ⟨"b", 5⟩).task_queue,
          u.priority ≤ t.priority :=
  claim9_pool_invariants.2.2.2.2
    ((AgentPool.init 0).queue_task ⟨"a", 1⟩ |>.queue_task ⟨"b", 5⟩)
    (by decide)

end Claudecraft
